import Mathlib

set_option maxRecDepth 100000

/-!
Verification of the Serene chat application (`app.py`).

The embedding works over `List Char` (Python strings).  The chat endpoint
`get_bot_response` is modelled as a pure function from a `ChatState`
(session contents, model-availability flag, and the model's generation
procedure as an oracle) and the submitted message to an event trace plus
an HTTP result.  The credential store is a list of user records; password
hashing is an abstract scheme (`generate_password_hash` in the source uses
a random salt, so only its verification contract matters).
-/

namespace Serene

/-- Python `str.lower()` restricted to ASCII case mapping. -/
def lowerChars (cs : List Char) : List Char := cs.map Char.toLower

/-- Python `needle in hay` for strings: contiguous-substring test. -/
def isSubstring (needle : List Char) : List Char → Bool
  | [] => needle.isPrefixOf ([] : List Char)
  | c :: rest => needle.isPrefixOf (c :: rest) || isSubstring needle rest

/-- Python `str.strip()`: drop leading and trailing whitespace. -/
def trimChars (cs : List Char) : List Char :=
  ((cs.dropWhile Char.isWhitespace).reverse.dropWhile Char.isWhitespace).reverse

/-- The fixed crisis-phrase list from `get_bot_response` (line 125). -/
def crisis_words : List (List Char) :=
  ["suicide".toList, "kill myself".toList, "end my life".toList,
   "want to die".toList, "hurt myself".toList]

/-- Line 126: `any(word in user_message.lower() for word in crisis_words)`. -/
def contains_crisis_language (m : List Char) : Bool :=
  crisis_words.any (fun w => isSubstring w (lowerChars m))

/-- The role label used to locate the assistant reply (line 153). -/
def sereneTag : List Char := "Serene:".toList

/-- Python `hay.split(needle, 1)[1]` when `needle in hay`: the suffix strictly
after the first occurrence of `needle`; `none` when there is no occurrence. -/
def dropThroughFirst (needle : List Char) : List Char → Option (List Char)
  | [] => if needle.isPrefixOf ([] : List Char) then some [] else none
  | c :: rest =>
    if needle.isPrefixOf (c :: rest) then some ((c :: rest).drop needle.length)
    else dropThroughFirst needle rest

/-- Lines 153-154: keep only the text after the first `"Serene:"`, trimmed;
otherwise keep the decoded text as-is. -/
def extractReply (decoded : List Char) : List Char :=
  match dropThroughFirst sereneTag decoded with
  | some post => trimChars post
  | none => decoded

/-- Line 157: `re.sub(r"\s+", " ", reply)` — each maximal whitespace run
becomes a single space.  The flag records whether the previous character was
part of a whitespace run already emitted. -/
def collapseAux : Bool → List Char → List Char
  | _, [] => []
  | prevWs, c :: rest =>
    if c.isWhitespace then
      if prevWs then collapseAux true rest else ' ' :: collapseAux true rest
    else c :: collapseAux false rest

def collapseWs (cs : List Char) : List Char := collapseAux false cs

/-- Python `str.split()` with no separator: split on whitespace runs,
dropping empty pieces.  `cur` accumulates the current word reversed. -/
def splitWsAux (cur : List Char) : List Char → List (List Char)
  | [] => if cur.isEmpty then [] else [cur.reverse]
  | c :: rest =>
    if c.isWhitespace then
      if cur.isEmpty then splitWsAux [] rest
      else cur.reverse :: splitWsAux [] rest
    else splitWsAux (c :: cur) rest

def splitWs (cs : List Char) : List (List Char) := splitWsAux [] cs

/-- Lines 156-164: collapse whitespace, then keep at most 60 words, appending
`"..."` when truncation happened; otherwise return the collapsed text. -/
def formatReply (reply : List Char) : List Char :=
  if (splitWs (collapseWs reply)).length > 60 then
    List.intercalate [' '] ((splitWs (collapseWs reply)).take 60) ++ "...".toList
  else collapseWs reply

/-- Line 57-58: `build_prompt`. -/
def build_prompt (user_input : List Char) : List Char :=
  "User: ".toList ++ user_input ++ "\nSerene:".toList

/- Fixed response strings of the chat endpoint. -/

def loginPromptMsg : List Char := "Please log in to chat.".toList

def typeSomethingMsg : List Char := "Please type something 💬".toList

def safetyMessage : List Char :=
  ("🌸 I\x27m really sorry you\x27re feeling this way. " ++
   "If you\x27re in immediate danger, please call emergency services (112 in India). " ++
   "You don’t have to face this alone — I’m here with you.").toList

def unavailableMsg : List Char := "⚠️ Serene model unavailable.".toList

/-- An HTTP-level outcome: a plain-text body with a status code (Flask gives
status 200 to a bare string return), or a redirect to a named route. -/
inductive HttpResult where
  | text (status : Nat) (body : List Char)
  | redirectTo (target : List Char)
deriving DecidableEq

/-- The processing steps of the chat endpoint, in source order, used to state
ordering properties of the pipeline. -/
inductive ChatEvent where
  | authCheck
  | trimMsg
  | emptyCheck
  | crisisCheck
  | modelCheck
  | generate (prompt : List Char)
  | extract
  | format
deriving DecidableEq

/-- Process-wide state seen by one chat request: the session contents, whether
the model and tokenizer loaded at startup (they are set to `None` together on
failure), and the model's decode-of-generate procedure as an oracle from the
prompt to the decoded output text. -/
structure ChatState where
  sessionUserId : Option Nat
  modelLoaded : Bool
  generate : List Char → List Char

/-- Lines 115-164: the `/get` handler.  Returns the trace of processing steps
performed, in source order, together with the HTTP result. -/
def get_bot_response (st : ChatState) (msg : List Char) : List ChatEvent × HttpResult :=
  match st.sessionUserId with
  | none => ([ChatEvent.authCheck], HttpResult.text 401 loginPromptMsg)
  | some _ =>
    if (trimChars msg).isEmpty then
      ([ChatEvent.authCheck, ChatEvent.trimMsg, ChatEvent.emptyCheck],
       HttpResult.text 200 typeSomethingMsg)
    else if contains_crisis_language (trimChars msg) then
      ([ChatEvent.authCheck, ChatEvent.trimMsg, ChatEvent.emptyCheck, ChatEvent.crisisCheck],
       HttpResult.text 200 safetyMessage)
    else if !st.modelLoaded then
      ([ChatEvent.authCheck, ChatEvent.trimMsg, ChatEvent.emptyCheck, ChatEvent.crisisCheck,
        ChatEvent.modelCheck],
       HttpResult.text 200 unavailableMsg)
    else
      ([ChatEvent.authCheck, ChatEvent.trimMsg, ChatEvent.emptyCheck, ChatEvent.crisisCheck,
        ChatEvent.modelCheck, ChatEvent.generate (build_prompt (trimChars msg)),
        ChatEvent.extract, ChatEvent.format],
       HttpResult.text 200
         (formatReply (extractReply (st.generate (build_prompt (trimChars msg))))))

/-- A concrete chat state used by witnesses: logged in, model loaded, and a
generation oracle that echoes the prompt with a reply appended. -/
def wState : ChatState :=
  ⟨some 1, true, fun p => p ++ " I hear you.".toList⟩

/-- Claim C1: an authenticated chat request whose trimmed message is non-empty
and contains a crisis phrase (case-insensitively) gets the fixed safety
message, which mentions emergency services, and the generation step never
runs. -/
theorem crisis_shortcircuits_generation (st : ChatState) (msg : List Char) (uid : Nat)
    (hauth : st.sessionUserId = some uid)
    (hne : (trimChars msg).isEmpty = false)
    (hcr : contains_crisis_language (trimChars msg) = true) :
    (get_bot_response st msg).2 = HttpResult.text 200 safetyMessage ∧
    (∀ p, ChatEvent.generate p ∉ (get_bot_response st msg).1) ∧
    isSubstring ("emergency services".toList) safetyMessage = true := by
  have hfull : get_bot_response st msg =
      ([ChatEvent.authCheck, ChatEvent.trimMsg, ChatEvent.emptyCheck, ChatEvent.crisisCheck],
       HttpResult.text 200 safetyMessage) := by
    unfold get_bot_response
    rw [hauth]
    simp [hne, hcr]
  refine ⟨by rw [hfull], ?_, by decide⟩
  intro p
  rw [hfull]
  simp

theorem crisis_shortcircuits_generation_witness :
    wState.sessionUserId = some 1 ∧
    (trimChars ("I want to die".toList)).isEmpty = false ∧
    contains_crisis_language (trimChars ("I want to die".toList)) = true ∧
    ((get_bot_response wState ("I want to die".toList)).2 = HttpResult.text 200 safetyMessage ∧
     (∀ p, ChatEvent.generate p ∉ (get_bot_response wState ("I want to die".toList)).1) ∧
     isSubstring ("emergency services".toList) safetyMessage = true) :=
  ⟨rfl, by decide, by decide,
   crisis_shortcircuits_generation wState ("I want to die".toList) 1 rfl (by decide) (by decide)⟩

/-- Claim C8: a chat request without a session gets HTTP 401 with body
"Please log in to chat.", whatever the message; the trace shows that no other
processing of the message happens. -/
theorem unauthenticated_chat_401 (st : ChatState) (msg : List Char)
    (hauth : st.sessionUserId = none) :
    get_bot_response st msg = ([ChatEvent.authCheck], HttpResult.text 401 loginPromptMsg) := by
  unfold get_bot_response
  rw [hauth]

theorem unauthenticated_chat_401_witness :
    (ChatState.mk none true (fun p => p)).sessionUserId = none ∧
    get_bot_response (ChatState.mk none true (fun p => p)) ("I want to die".toList) =
      ([ChatEvent.authCheck], HttpResult.text 401 loginPromptMsg) :=
  ⟨rfl, unauthenticated_chat_401 (ChatState.mk none true (fun p => p)) ("I want to die".toList) rfl⟩

/-- Claim C2 counterexample: with the model unavailable, an authenticated
request containing crisis language gets the safety message, not the fixed
unavailability text — so "whatever the message content" fails. -/
theorem model_unavailable_claim_cex :
    (get_bot_response (ChatState.mk (some 1) false (fun p => p)) ("I want to die".toList)).2 =
      HttpResult.text 200 safetyMessage ∧
    (get_bot_response (ChatState.mk (some 1) false (fun p => p)) ("I want to die".toList)).2 ≠
      HttpResult.text 200 unavailableMsg := by
  constructor
  · decide
  · decide

/-- Claim C2 (amended): when the model failed to load, every authenticated
chat request whose trimmed message is non-empty and free of crisis language
returns the fixed unavailability message, and generation is never attempted. -/
theorem model_unavailable_reply (st : ChatState) (msg : List Char) (uid : Nat)
    (hauth : st.sessionUserId = some uid)
    (hml : st.modelLoaded = false)
    (hne : (trimChars msg).isEmpty = false)
    (hcr : contains_crisis_language (trimChars msg) = false) :
    get_bot_response st msg =
      ([ChatEvent.authCheck, ChatEvent.trimMsg, ChatEvent.emptyCheck, ChatEvent.crisisCheck,
        ChatEvent.modelCheck],
       HttpResult.text 200 unavailableMsg) := by
  unfold get_bot_response
  rw [hauth]
  simp [hne, hcr, hml]

theorem model_unavailable_reply_witness :
    (ChatState.mk (some 1) false (fun p => p)).sessionUserId = some 1 ∧
    (ChatState.mk (some 1) false (fun p => p)).modelLoaded = false ∧
    (trimChars ("hello".toList)).isEmpty = false ∧
    contains_crisis_language (trimChars ("hello".toList)) = false ∧
    get_bot_response (ChatState.mk (some 1) false (fun p => p)) ("hello".toList) =
      ([ChatEvent.authCheck, ChatEvent.trimMsg, ChatEvent.emptyCheck, ChatEvent.crisisCheck,
        ChatEvent.modelCheck],
       HttpResult.text 200 unavailableMsg) :=
  ⟨rfl, rfl, by decide, by decide,
   model_unavailable_reply (ChatState.mk (some 1) false (fun p => p)) ("hello".toList) 1 rfl rfl
     (by decide) (by decide)⟩

/-- Steps of the chat handler that process the submitted message (the
authentication check does not touch the message; the crisis check is the
step the claim is about). -/
def isMsgProcessing : ChatEvent → Bool
  | ChatEvent.authCheck => false
  | ChatEvent.crisisCheck => false
  | _ => true

/-- Claim C3 counterexample: on a crisis message the events before the crisis
check include the trim and the empty-input check, so message-processing steps
do run before the crisis check. -/
theorem crisis_first_claim_cex :
    ¬ (((get_bot_response wState ("I want to die".toList)).1.takeWhile
          (fun e => !(e == ChatEvent.crisisCheck))).all
        (fun e => !(isMsgProcessing e)) = true) := by
  decide

/-- Claim C3 (amended): the crisis check runs after only the authentication
check and the trim/empty-input check, and before the model-availability check
and generation: for every state — so the check cannot be disabled by anything
in the request — a crisis-bearing message yields exactly the trace
auth, trim, empty-check, crisis-check and the fixed safety message. -/
theorem crisis_check_position (st : ChatState) (msg : List Char) (uid : Nat)
    (hauth : st.sessionUserId = some uid)
    (hne : (trimChars msg).isEmpty = false)
    (hcr : contains_crisis_language (trimChars msg) = true) :
    get_bot_response st msg =
      ([ChatEvent.authCheck, ChatEvent.trimMsg, ChatEvent.emptyCheck, ChatEvent.crisisCheck],
       HttpResult.text 200 safetyMessage) := by
  unfold get_bot_response
  rw [hauth]
  simp [hne, hcr]

theorem crisis_check_position_witness :
    wState.sessionUserId = some 1 ∧
    (trimChars ("I want to die".toList)).isEmpty = false ∧
    contains_crisis_language (trimChars ("I want to die".toList)) = true ∧
    get_bot_response wState ("I want to die".toList) =
      ([ChatEvent.authCheck, ChatEvent.trimMsg, ChatEvent.emptyCheck, ChatEvent.crisisCheck],
       HttpResult.text 200 safetyMessage) :=
  ⟨rfl, by decide, by decide,
   crisis_check_position wState ("I want to die".toList) 1 rfl (by decide) (by decide)⟩

/-- Claim C4: the formatter collapses whitespace runs (newlines included) to
single spaces, splits into words, keeps the first 60 plus an ellipsis when
more than 60 remain, and otherwise returns the collapsed text; on 100
repeated words it returns the first 60 joined by spaces plus "...", and on
10 words it returns all 10. -/
theorem format_truncates :
    (∀ t : List Char, 60 < (splitWs (collapseWs t)).length →
       formatReply t =
         List.intercalate [' '] ((splitWs (collapseWs t)).take 60) ++ "...".toList) ∧
    (∀ t : List Char, (splitWs (collapseWs t)).length ≤ 60 →
       formatReply t = collapseWs t) ∧
    formatReply (List.intercalate [' '] (List.replicate 100 ("word".toList))) =
      List.intercalate [' '] (List.replicate 60 ("word".toList)) ++ "...".toList ∧
    formatReply (List.intercalate [' '] (List.replicate 10 ("word".toList))) =
      List.intercalate [' '] (List.replicate 10 ("word".toList)) ∧
    collapseWs ("a \n\t b".toList) = ("a b".toList) := by
  refine ⟨?_, ?_, by decide, by decide, by decide⟩
  · intro t h
    simp [formatReply, h]
  · intro t h
    have h' : ¬ (splitWs (collapseWs t)).length > 60 := by omega
    simp [formatReply, h']

theorem format_truncates_witness :
    60 < (splitWs (collapseWs (List.intercalate [' ']
        (List.replicate 100 ("word".toList))))).length ∧
    formatReply (List.intercalate [' '] (List.replicate 100 ("word".toList))) =
      List.intercalate [' ']
        ((splitWs (collapseWs (List.intercalate [' ']
          (List.replicate 100 ("word".toList))))).take 60) ++ "...".toList ∧
    (splitWs (collapseWs ("a b".toList))).length ≤ 60 ∧
    formatReply ("a b".toList) = collapseWs ("a b".toList) :=
  ⟨by decide, format_truncates.1 _ (by decide), by decide,
   format_truncates.2.1 _ (by decide)⟩

lemma isPrefixOf_append_self (n post : List Char) : n.isPrefixOf (n ++ post) = true := by
  induction n with
  | nil => simp [List.isPrefixOf]
  | cons a n ih => simp [List.isPrefixOf, ih]

lemma isSubstring_of_pref (n w : List Char) (h : n.isPrefixOf w = true) :
    isSubstring n w = true := by
  cases w with
  | nil => simpa [isSubstring] using h
  | cons c rest => simp [isSubstring, h]

/-- A prefix of `l₁` that fits inside the shorter list `l₂` (which agrees with
`l₁` on its whole length) is a prefix of `l₂` as well. -/
lemma prefixOf_shorter (n l₁ l₂ : List Char) (hk : l₁.take l₂.length = l₂)
    (hlen : n.length ≤ l₂.length) (h : n.isPrefixOf l₁ = true) :
    n.isPrefixOf l₂ = true := by
  simp only [ List.isPrefixOf_iff_prefix] at h ⊢
  rw [List.prefix_iff_eq_take] at h ⊢
  have htake : l₂.take n.length = l₁.take n.length := by
    rw [← hk, List.take_take, Nat.min_eq_left hlen]
  exact h.trans htake.symm

/-- When the needle occurs nowhere in the haystack, `dropThroughFirst`
reports no occurrence. -/
lemma dropThroughFirst_none (n : List Char) :
    ∀ d : List Char, isSubstring n d = false → dropThroughFirst n d = none := by
  intro d
  induction d with
  | nil =>
    intro h
    simp only [isSubstring] at h
    simp [dropThroughFirst, h]
  | cons c rest ih =>
    intro h
    simp only [isSubstring, Bool.or_eq_false_iff] at h
    simp [dropThroughFirst, h.1, ih h.2]

lemma dropThroughFirst_cons_self (n post : List Char) (hn : n ≠ []) :
    dropThroughFirst n (n ++ post) = some post := by
  cases n with
  | nil => exact absurd rfl hn
  | cons a n' =>
    have h1 : (a :: n').isPrefixOf (a :: (n' ++ post)) = true := by
      rw [← List.cons_append]
      exact isPrefixOf_append_self _ _
    have h2 : ((a :: n') ++ post).drop (a :: n').length = post := List.drop_left _ _
    rw [List.cons_append] at h2
    rw [List.cons_append]
    simp [dropThroughFirst, h1, h2]

/-- `dropThroughFirst` splits at the first occurrence: when the needle starts
nowhere inside `pre` (expressed as it not occurring in `pre` extended by all
but the needle's last character), the suffix returned is exactly `post`. -/
lemma dropThroughFirst_first (n : List Char) (hn : n ≠ []) :
    ∀ pre post : List Char, isSubstring n (pre ++ n.dropLast) = false →
      dropThroughFirst n (pre ++ (n ++ post)) = some post := by
  intro pre
  induction pre with
  | nil =>
    intro post _
    simpa using dropThroughFirst_cons_self n post hn
  | cons c pre' ih =>
    intro post hsub
    have hsub' : isSubstring n (pre' ++ n.dropLast) = false := by
      rw [List.cons_append] at hsub
      simp only [isSubstring, Bool.or_eq_false_iff] at hsub
      exact hsub.2
    have hnpf : n.isPrefixOf (c :: (pre' ++ (n ++ post))) = false := by
      cases hcase : n.isPrefixOf (c :: (pre' ++ (n ++ post))) with
      | false => rfl
      | true =>
        exfalso
        have hlast := List.dropLast_append_getLast hn
        have hshape : c :: (pre' ++ (n ++ post)) =
            ((c :: pre') ++ n.dropLast) ++ ([n.getLast hn] ++ post) := by
          conv_lhs => rw [← hlast]
          simp [List.append_assoc]
        have hk : (c :: (pre' ++ (n ++ post))).take ((c :: pre') ++ n.dropLast).length
            = (c :: pre') ++ n.dropLast := by
          rw [hshape, List.take_left]
        have hlen : n.length ≤ ((c :: pre') ++ n.dropLast).length := by
          have hnl : 1 ≤ n.length := List.length_pos.mpr hn
          simp only [List.length_append, List.length_cons, List.length_dropLast]
          omega
        have hpref2 := prefixOf_shorter n _ _ hk hlen hcase
        have hsubgot := isSubstring_of_pref n _ hpref2
        rw [hsub] at hsubgot
        exact Bool.false_ne_true hsubgot
    rw [List.cons_append]
    simp only [dropThroughFirst, hnpf, Bool.false_eq_true, if_false]
    exact ih post hsub'

/-- Claim C5: if the decoded model output contains "Serene:", the reply kept
is the substring strictly after the first occurrence, trimmed; otherwise the
decoded text is used as-is; on the spec's example output the extracted reply
is "I'm doing well, thank you!". -/
theorem serene_extraction :
    (∀ d : List Char, isSubstring sereneTag d = false → extractReply d = d) ∧
    (∀ pre post : List Char,
       isSubstring sereneTag (pre ++ sereneTag.dropLast) = false →
       extractReply (pre ++ (sereneTag ++ post)) = trimChars post) ∧
    extractReply ("User: hello\nSerene: I\x27m doing well, thank you!".toList) =
      ("I\x27m doing well, thank you!".toList) := by
  refine ⟨?_, ?_, by decide⟩
  · intro d h
    unfold extractReply
    rw [dropThroughFirst_none sereneTag d h]
  · intro pre post h
    unfold extractReply
    rw [dropThroughFirst_first sereneTag (by decide) pre post h]

theorem serene_extraction_witness :
    isSubstring sereneTag ("no tag here".toList) = false ∧
    extractReply ("no tag here".toList) = ("no tag here".toList) ∧
    isSubstring sereneTag (("User: hello\n".toList) ++ sereneTag.dropLast) = false ∧
    extractReply (("User: hello\n".toList) ++
        (sereneTag ++ (" I\x27m doing well, thank you!".toList))) =
      trimChars (" I\x27m doing well, thank you!".toList) :=
  ⟨by decide, serene_extraction.1 _ (by decide), by decide,
   serene_extraction.2.1 _ _ (by decide)⟩

/-- A row of the `User` table (lines 26-29): auto-assigned id, username, and
the stored password hash (the column is named `password` in the source). -/
structure UserRec where
  id : Nat
  username : List Char
  password : List Char
deriving DecidableEq

/-- The werkzeug hashing pair used by the source: `generate_password_hash`
draws a random salt, so it is embedded as an abstract scheme of which only
the verification contract matters. -/
structure HashScheme where
  generate_password_hash : List Char → List Char
  check_password_hash : List Char → List Char → Bool

/-- The contract of a salted one-way hash: verification accepts the password
the hash was generated from, and only that password. -/
def HashScheme.Correct (hs : HashScheme) : Prop :=
  (∀ pw, hs.check_password_hash (hs.generate_password_hash pw) pw = true) ∧
  (∀ pw pw', hs.check_password_hash (hs.generate_password_hash pw) pw' = true → pw' = pw)

def usernameExistsMsg : List Char := "Username already exists!".toList

def invalidLoginMsg : List Char := "Invalid username or password.".toList

/-- Lines 71-86: the POST branch of `/signup`.  The username is trimmed, the
password is not; an existing row with the same username means HTTP 400 and an
unchanged store; otherwise a row with the hashed password is appended and the
client is redirected to the login page. -/
def signup (hs : HashScheme) (store : List UserRec) (username password : List Char) :
    HttpResult × List UserRec :=
  if (store.find? (fun r => r.username == trimChars username)).isSome then
    (HttpResult.text 400 usernameExistsMsg, store)
  else
    (HttpResult.redirectTo ("login".toList),
     store ++ [⟨store.length + 1, trimChars username, hs.generate_password_hash password⟩])

/-- Lines 89-103: the POST branch of `/login`.  The username is trimmed, the
password is not; the first row with that username is checked; success stores
the user id in the session and redirects home; both "no such user" and
"wrong password" fall through to the same 401 response. -/
def login (hs : HashScheme) (store : List UserRec) (sess : Option Nat)
    (username password : List Char) : HttpResult × Option Nat :=
  match store.find? (fun r => r.username == trimChars username) with
  | some u =>
    if hs.check_password_hash u.password password then
      (HttpResult.redirectTo ("home".toList), some u.id)
    else (HttpResult.text 401 invalidLoginMsg, sess)
  | none => (HttpResult.text 401 invalidLoginMsg, sess)

/-- A concrete hash scheme for witnesses: the identity, with equality as
verification. -/
def idHash : HashScheme := ⟨fun pw => pw, fun h pw => h == pw⟩

lemma idHash_correct : idHash.Correct := by
  constructor
  · intro pw
    simp [idHash]
  · intro pw pw' h
    simp [idHash] at h
    exact h.symm

lemma find?_append_none {p : UserRec → Bool} {l₁ : List UserRec} (l₂ : List UserRec)
    (h : l₁.find? p = none) : (l₁ ++ l₂).find? p = l₂.find? p := by
  induction l₁ with
  | nil => simp
  | cons a l ih =>
    cases hpa : p a with
    | true =>
      rw [List.find?_cons_of_pos _ hpa] at h
      exact absurd h (by simp)
    | false =>
      rw [List.find?_cons_of_neg _ (by simp [hpa])] at h
      rw [List.cons_append, List.find?_cons_of_neg _ (by simp [hpa])]
      exact ih h

/-- Claim C6: signup followed by login with the same credentials succeeds and
establishes a session; login with a wrong password for an existing user gets
the uniform 401 invalid-credentials response. -/
theorem signup_login_roundtrip (hs : HashScheme) (hcor : hs.Correct) :
    (∀ (store : List UserRec) (u p : List Char),
       store.find? (fun r => r.username == trimChars u) = none →
       (login hs (signup hs store u p).2 none u p).1 =
           HttpResult.redirectTo ("home".toList) ∧
       (login hs (signup hs store u p).2 none u p).2 = some (store.length + 1)) ∧
    (∀ (store : List UserRec) (sess : Option Nat) (u p wrong : List Char) (q : UserRec),
       store.find? (fun r => r.username == trimChars u) = some q →
       q.password = hs.generate_password_hash p →
       wrong ≠ p →
       login hs store sess u wrong = (HttpResult.text 401 invalidLoginMsg, sess)) := by
  constructor
  · intro store u p hfresh
    have hsign : (signup hs store u p).2 =
        store ++ [⟨store.length + 1, trimChars u, hs.generate_password_hash p⟩] := by
      simp [signup, hfresh]
    have hfind : ((signup hs store u p).2).find? (fun r => r.username == trimChars u) =
        some ⟨store.length + 1, trimChars u, hs.generate_password_hash p⟩ := by
      rw [hsign, find?_append_none _ hfresh]
      simp
    constructor
    · simp [login, hfind, hcor.1 p]
    · simp [login, hfind, hcor.1 p]
  · intro store sess u p wrong q hfind hpw hne
    have hchk : hs.check_password_hash q.password wrong = false := by
      cases hc : hs.check_password_hash q.password wrong with
      | false => rfl
      | true =>
        rw [hpw] at hc
        exact absurd (hcor.2 p wrong hc) hne
    simp [login, hfind, hchk]

theorem signup_login_roundtrip_witness :
    idHash.Correct ∧
    (([] : List UserRec).find? (fun r => r.username == trimChars ("alice".toList)) = none ∧
     (login idHash (signup idHash [] ("alice".toList) ("pw".toList)).2 none
         ("alice".toList) ("pw".toList)).1 = HttpResult.redirectTo ("home".toList)) ∧
    (("xy".toList : List Char) ≠ ("pw".toList) ∧
     login idHash [⟨1, "alice".toList, "pw".toList⟩] none ("alice".toList) ("xy".toList) =
       (HttpResult.text 401 invalidLoginMsg, none)) :=
  ⟨idHash_correct,
   ⟨rfl, ((signup_login_roundtrip idHash idHash_correct).1 [] ("alice".toList)
       ("pw".toList) rfl).1⟩,
   ⟨by decide,
    (signup_login_roundtrip idHash idHash_correct).2 [⟨1, "alice".toList, "pw".toList⟩]
      none ("alice".toList) ("pw".toList) ("xy".toList) ⟨1, "alice".toList, "pw".toList⟩
      (by decide) rfl (by decide)⟩⟩

/-- Claim C7: after one successful signup, a second signup whose username
trims to the same name fails with HTTP 400 "Username already exists!", leaves
the store unchanged, and the store holds exactly one record for that
username. -/
theorem duplicate_signup_rejected (hs : HashScheme) (store : List UserRec)
    (u1 u2 p1 p2 : List Char)
    (hsame : trimChars u2 = trimChars u1)
    (hfresh : store.find? (fun r => r.username == trimChars u1) = none) :
    signup hs (signup hs store u1 p1).2 u2 p2 =
      (HttpResult.text 400 usernameExistsMsg, (signup hs store u1 p1).2) ∧
    (((signup hs store u1 p1).2).filter (fun r => r.username == trimChars u1)).length = 1 := by
  have hsign : (signup hs store u1 p1).2 =
      store ++ [⟨store.length + 1, trimChars u1, hs.generate_password_hash p1⟩] := by
    simp [signup, hfresh]
  have hfind2 : ((signup hs store u1 p1).2).find? (fun r => r.username == trimChars u2) =
      some ⟨store.length + 1, trimChars u1, hs.generate_password_hash p1⟩ := by
    rw [hsame, hsign, find?_append_none _ hfresh]
    simp
  constructor
  · have hcond : (((signup hs store u1 p1).2).find?
        (fun r => r.username == trimChars u2)).isSome = true := by
      rw [hfind2]
      rfl
    rw [signup, hcond]
    simp
  · rw [hsign, List.filter_append]
    have hstore : store.filter (fun r => r.username == trimChars u1) = [] := by
      rw [List.filter_eq_nil_iff]
      intro a ha
      exact List.find?_eq_none.mp hfresh a ha
    rw [hstore]
    simp

theorem duplicate_signup_rejected_witness :
    trimChars ("alice ".toList) = trimChars (" alice".toList) ∧
    (([] : List UserRec).find? (fun r => r.username == trimChars (" alice".toList)) = none) ∧
    signup idHash (signup idHash [] (" alice".toList) ("pw".toList)).2 ("alice ".toList)
        ("other".toList) =
      (HttpResult.text 400 usernameExistsMsg, (signup idHash [] (" alice".toList) ("pw".toList)).2) ∧
    (((signup idHash [] (" alice".toList) ("pw".toList)).2).filter
        (fun r => r.username == trimChars (" alice".toList))).length = 1 :=
  ⟨by decide, rfl,
   (duplicate_signup_rejected idHash [] (" alice".toList) ("alice ".toList)
     ("pw".toList) ("other".toList) (by decide) rfl).1,
   (duplicate_signup_rejected idHash [] (" alice".toList) ("alice ".toList)
     ("pw".toList) ("other".toList) (by decide) rfl).2⟩

/-- Claim C9: a login with an unknown username and a login with a known
username but rejected password produce identical responses — 401 with
"Invalid username or password." — and neither touches the session. -/
theorem login_failure_uniform (hs : HashScheme) (store : List UserRec) (sess : Option Nat)
    (u1 p1 u2 p2 : List Char) (q : UserRec)
    (h1 : store.find? (fun r => r.username == trimChars u1) = none)
    (h2 : store.find? (fun r => r.username == trimChars u2) = some q)
    (hbad : hs.check_password_hash q.password p2 = false) :
    login hs store sess u1 p1 = login hs store sess u2 p2 ∧
    login hs store sess u1 p1 = (HttpResult.text 401 invalidLoginMsg, sess) := by
  have e1 : login hs store sess u1 p1 = (HttpResult.text 401 invalidLoginMsg, sess) := by
    simp [login, h1]
  have e2 : login hs store sess u2 p2 = (HttpResult.text 401 invalidLoginMsg, sess) := by
    simp [login, h2, hbad]
  exact ⟨e1.trans e2.symm, e1⟩

theorem login_failure_uniform_witness :
    ([⟨1, "alice".toList, "pw".toList⟩] : List UserRec).find?
        (fun r => r.username == trimChars ("bob".toList)) = none ∧
    ([⟨1, "alice".toList, "pw".toList⟩] : List UserRec).find?
        (fun r => r.username == trimChars ("alice".toList)) =
      some ⟨1, "alice".toList, "pw".toList⟩ ∧
    idHash.check_password_hash ("pw".toList) ("xy".toList) = false ∧
    (login idHash [⟨1, "alice".toList, "pw".toList⟩] none ("bob".toList) ("guess".toList) =
       login idHash [⟨1, "alice".toList, "pw".toList⟩] none ("alice".toList) ("xy".toList) ∧
     login idHash [⟨1, "alice".toList, "pw".toList⟩] none ("bob".toList) ("guess".toList) =
       (HttpResult.text 401 invalidLoginMsg, none)) :=
  ⟨by decide, by decide, by decide,
   login_failure_uniform idHash [⟨1, "alice".toList, "pw".toList⟩] none ("bob".toList)
     ("guess".toList) ("alice".toList) ("xy".toList) ⟨1, "alice".toList, "pw".toList⟩
     (by decide) (by decide) (by decide)⟩

lemma dropWhile_append_all {p : Char → Bool} {l : List Char} (r : List Char)
    (h : ∀ c ∈ l, p c = true) : (l ++ r).dropWhile p = r.dropWhile p := by
  induction l with
  | nil => simp
  | cons a l ih =>
    rw [List.cons_append, List.dropWhile_cons]
    rw [h a (by simp)]
    simp only [if_true]
    exact ih (fun c hc => h c (by simp [hc]))

lemma trim_left_pad {wsl v : List Char} (h : ∀ c ∈ wsl, c.isWhitespace = true) :
    trimChars (wsl ++ v) = trimChars v := by
  unfold trimChars
  rw [dropWhile_append_all v h]

lemma trim_right_pad {v wsr : List Char} (h : ∀ c ∈ wsr, c.isWhitespace = true) :
    trimChars (v ++ wsr) = trimChars v := by
  unfold trimChars
  rw [List.dropWhile_append]
  cases hd : (v.dropWhile Char.isWhitespace).isEmpty with
  | true =>
    have hv : v.dropWhile Char.isWhitespace = [] := by
      cases hvd : v.dropWhile Char.isWhitespace with
      | nil => rfl
      | cons x l => rw [hvd] at hd; exact absurd hd (by simp)
    have hw : wsr.dropWhile Char.isWhitespace = [] := by
      rw [List.dropWhile_eq_nil_iff]
      exact h
    simp [hv, hw]
  | false =>
    simp only [Bool.false_eq_true, if_false]
    rw [List.reverse_append]
    rw [dropWhile_append_all _ (fun c hc => h c (List.mem_reverse.mp hc))]

/-- Claim C10: usernames are trimmed at signup and login but passwords are
not: after a signup, a login whose username is the signup username padded
with whitespace succeeds, while a login whose password is the signup password
padded with (some) whitespace fails. -/
theorem trim_asymmetry (hs : HashScheme) (hcor : hs.Correct)
    (store : List UserRec) (u p wsl wsr wsl2 wsr2 : List Char)
    (hwsl : ∀ c ∈ wsl, c.isWhitespace = true) (hwsr : ∀ c ∈ wsr, c.isWhitespace = true)
    (hwsl2 : ∀ c ∈ wsl2, c.isWhitespace = true) (hwsr2 : ∀ c ∈ wsr2, c.isWhitespace = true)
    (hpad : wsl2 ≠ [] ∨ wsr2 ≠ [])
    (hfresh : store.find? (fun r => r.username == trimChars u) = none) :
    (login hs (signup hs store u p).2 none (wsl ++ (u ++ wsr)) p).1 =
      HttpResult.redirectTo ("home".toList) ∧
    (login hs (signup hs store u p).2 none u (wsl2 ++ (p ++ wsr2))).1 =
      HttpResult.text 401 invalidLoginMsg := by
  have hsign : (signup hs store u p).2 =
      store ++ [⟨store.length + 1, trimChars u, hs.generate_password_hash p⟩] := by
    simp [signup, hfresh]
  have htrim : trimChars (wsl ++ (u ++ wsr)) = trimChars u := by
    rw [trim_left_pad hwsl, trim_right_pad hwsr]
  have hfind : ((signup hs store u p).2).find? (fun r => r.username == trimChars u) =
      some ⟨store.length + 1, trimChars u, hs.generate_password_hash p⟩ := by
    rw [hsign, find?_append_none _ hfresh]
    simp
  constructor
  · simp [login, htrim, hfind, hcor.1 p]
  · have hne : wsl2 ++ (p ++ wsr2) ≠ p := by
      intro he
      have hlen := congrArg List.length he
      simp only [List.length_append] at hlen
      rcases hpad with hc | hc
      · exact hc (List.length_eq_zero.mp (by omega))
      · exact hc (List.length_eq_zero.mp (by omega))
    have hchk : hs.check_password_hash (hs.generate_password_hash p)
        (wsl2 ++ (p ++ wsr2)) = false := by
      cases hc : hs.check_password_hash (hs.generate_password_hash p)
          (wsl2 ++ (p ++ wsr2)) with
      | false => rfl
      | true => exact absurd (hcor.2 p _ hc) hne
    simp [login, hfind, hchk]

theorem trim_asymmetry_witness :
    idHash.Correct ∧
    (∀ c ∈ ([' '] : List Char), c.isWhitespace = true) ∧
    (∀ c ∈ ([] : List Char), c.isWhitespace = true) ∧
    (([' '] : List Char) ≠ [] ∨ ([] : List Char) ≠ []) ∧
    (([] : List UserRec).find? (fun r => r.username == trimChars ("alice".toList)) = none) ∧
    ((login idHash (signup idHash [] ("alice".toList) ("pw".toList)).2 none
        ([' '] ++ (("alice".toList) ++ [])) ("pw".toList)).1 =
      HttpResult.redirectTo ("home".toList) ∧
     (login idHash (signup idHash [] ("alice".toList) ("pw".toList)).2 none
        ("alice".toList) ([' '] ++ (("pw".toList) ++ []))).1 =
      HttpResult.text 401 invalidLoginMsg) :=
  ⟨idHash_correct, by decide, by decide, Or.inl (by decide), rfl,
   trim_asymmetry idHash idHash_correct [] ("alice".toList) ("pw".toList)
     [' '] [] [' '] [] (by decide) (by decide) (by decide) (by decide)
     (Or.inl (by decide)) rfl⟩

end Serene
